import Mathlib

/-!
# Runtime shim of Engine-Web (`src/runtime/runtime.c`)

A shallow embedding of the C runtime shim compiled for the wasm32 target.

* The program state is a `Machine`: the linear memory of the module (its
  byte contents and its length in bytes), the two globals the file
  defines (`memory_end`, `__stack_chk_guard`) and the private state of
  the host environment.
* The four `extern` functions `impl_*` are not defined in the file; they
  are taken as a parameter, the record `Host`.  A host function sees the
  whole machine (it writes `*memptr`, fills `buf`, ...) and may fault,
  which is the result `none`.
* The two compiler builtins are instructions of the WebAssembly engine;
  they are modelled with the engine's limit and its admission policy as
  a parameter, the record `Engine`.
* `size_t`, `unsigned int`, `unsigned long` and pointers are 32-bit on
  wasm32 and are embedded as `Nat`; `int` is embedded as `Int`.  The shim
  performs no arithmetic on them.
-/

namespace Runtime

/-! ## Data model -/

/-- Source line 7: `#define WASM_PAGE 65536`. -/
def WASM_PAGE : Nat := 65536

/-- The value `(size_t)-1` on wasm32, which the grow builtin returns when
the request is refused. -/
def GROW_FAILED : Nat := 2 ^ 32 - 1

/-- The largest number of pages a 32-bit linear memory can have. -/
def PAGE_LIMIT : Nat := 65536

/-- Program state: linear memory, the globals of `runtime.c`, and the
private state `H` of the host environment. -/
structure Machine (H : Type) where
  /-- Byte stored at each address of linear memory. -/
  memory : Nat → Nat
  /-- Length of linear memory in bytes, as tracked by the engine. -/
  memory_bytes : Nat
  /-- Global of source line 10: `void *memory_end`. -/
  memory_end : Nat
  /-- Global of source line 40: `unsigned long __stack_chk_guard`. -/
  __stack_chk_guard : Nat
  /-- Whatever the host environment keeps outside the module. -/
  host : H

/-- The host-supplied functions declared `extern` at source lines 20, 25,
28 and 31.  Each one acts on the whole machine; `none` is a fault (a trap
or a host exception), after which nothing of the call returns. -/
structure Host (H : Type) where
  /-- Declared as `extern int impl_posix_memalign(void **memptr, size_t alignment, size_t size)`. -/
  impl_posix_memalign : Nat → Nat → Nat → Machine H → Option (Int × Machine H)
  /-- Declared as `extern void impl_free(void *_Nullable ptr)`. -/
  impl_free : Nat → Machine H → Option (Machine H)
  /-- Declared as `extern unsigned int impl_arc4random(void)`. -/
  impl_arc4random : Machine H → Option (Nat × Machine H)
  /-- Declared as `extern void impl_arc4random_buf(void *buf, size_t count)`. -/
  impl_arc4random_buf : Nat → Nat → Machine H → Option (Machine H)

/-- The part of the WebAssembly engine the builtins depend on: the
declared maximum of the memory and the engine's decision, from the
environment state, the current page count and the requested page count,
whether it has the resources for a growth request. -/
structure Engine (H : Type) where
  /-- Declared maximum of the memory, in pages. -/
  max_pages : Nat
  /-- Whether the engine is able to serve a request that is within the limits. -/
  grants : H → Nat → Nat → Bool

/-- Initial state of the globals, source lines 9-10 and 40:
`void *memory_end = &heap;` and `unsigned long __stack_chk_guard = 0x1;`.
The address `heap` of the linker symbol, the memory and the host state are
given from outside. -/
def initial {H : Type} (heap : Nat) (memory : Nat → Nat) (memory_bytes : Nat) (host : H) :
    Machine H :=
  { memory := memory
    memory_bytes := memory_bytes
    memory_end := heap
    __stack_chk_guard := 0x1
    host := host }

/-! ## Engine builtins -/

/-- Modelled from the spec: the compiler builtin `__builtin_wasm_memory_size`
is not part of the source; it is the engine's query for the current size of
linear memory, in pages of 65536 bytes.  It reads the state only. -/
def __builtin_wasm_memory_size {H : Type} (_idx : Nat) (m : Machine H) : Nat :=
  m.memory_bytes / WASM_PAGE

/-- Whether the engine serves a request for `delta` more pages. -/
def grow_admitted {H : Type} (E : Engine H) (delta : Nat) (m : Machine H) : Bool :=
  decide (m.memory_bytes / WASM_PAGE + delta ≤ min E.max_pages PAGE_LIMIT)
    && E.grants m.host (m.memory_bytes / WASM_PAGE) delta

/-- Modelled from the spec: the compiler builtin `__builtin_wasm_memory_grow`
is not part of the source; it asks the engine for `delta` more pages.  When
the engine serves the request the memory is longer by `delta` pages, the
added bytes are zero and the result is the previous page count; otherwise nothing
changes and the result is the failure value. -/
def __builtin_wasm_memory_grow {H : Type} (E : Engine H) (_idx : Nat) (delta : Nat)
    (m : Machine H) : Nat × Machine H :=
  if grow_admitted E delta m then
    (m.memory_bytes / WASM_PAGE,
      { m with
        memory := fun a =>
          if m.memory_bytes ≤ a ∧ a < m.memory_bytes + delta * WASM_PAGE then 0 else m.memory a
        memory_bytes := m.memory_bytes + delta * WASM_PAGE })
  else
    (GROW_FAILED, m)

/-! ## The functions of `runtime.c` -/

/-- Source lines 12-14:
`size_t memory_size() { return __builtin_wasm_memory_size(0); }`. -/
def memory_size {H : Type} (m : Machine H) : Nat × Machine H :=
  (__builtin_wasm_memory_size 0 m, m)

/-- Source lines 16-18:
`void memory_grow(size_t page_count) { __builtin_wasm_memory_grow(0, page_count); }`.
The result of the builtin is dropped. -/
def memory_grow {H : Type} (E : Engine H) (page_count : Nat) (m : Machine H) : Machine H :=
  (__builtin_wasm_memory_grow E 0 page_count m).2

/-- Source lines 21-23:
`int posix_memalign(void **memptr, size_t alignment, size_t size)
 { return impl_posix_memalign(memptr, alignment, size); }`. -/
def posix_memalign {H : Type} (host : Host H) (memptr alignment size : Nat) (m : Machine H) :
    Option (Int × Machine H) :=
  host.impl_posix_memalign memptr alignment size m

/-- Source line 26: `void free(void *_Nullable ptr) { impl_free(ptr); }`. -/
def free {H : Type} (host : Host H) (ptr : Nat) (m : Machine H) : Option (Machine H) :=
  host.impl_free ptr m

/-- Source line 29: `unsigned int arc4random() { return impl_arc4random(); }`. -/
def arc4random {H : Type} (host : Host H) (m : Machine H) : Option (Nat × Machine H) :=
  host.impl_arc4random m

/-- Source line 32:
`void arc4random_buf(void *buf, size_t count) { impl_arc4random_buf(buf, count); }`. -/
def arc4random_buf {H : Type} (host : Host H) (buf count : Nat) (m : Machine H) :
    Option (Machine H) :=
  host.impl_arc4random_buf buf count m

/-- Source line 41: `void __stack_chk_guard_setup(void) {}`. -/
def __stack_chk_guard_setup {H : Type} (m : Machine H) : Machine H := m

/-- Source line 42: `void __stack_chk_fail(void) {}`. -/
def __stack_chk_fail {H : Type} (m : Machine H) : Machine H := m

/-! ## Auxiliary definitions used to state the properties -/

/-- An invocation of one of the four host functions, with its arguments in
the order of the C declaration. -/
inductive HostCall where
  | impl_posix_memalign (memptr alignment size : Nat)
  | impl_free (ptr : Nat)
  | impl_arc4random
  | impl_arc4random_buf (buf count : Nat)
  deriving DecidableEq

/-- The state `m` with one more entry in the host's log of invocations. -/
def record (c : HostCall) (m : Machine (List HostCall)) : Machine (List HostCall) :=
  { m with host := m.host ++ [c] }

/-- A stub host whose private state is the log of the invocations it
received.  Each function appends its own invocation, with the arguments it
was given, and returns the fixed values `code` and `word`. -/
def spy (code : Int) (word : Nat) : Host (List HostCall) :=
  { impl_posix_memalign := fun memptr alignment size m =>
      some (code, record (.impl_posix_memalign memptr alignment size) m)
    impl_free := fun ptr m => some (record (.impl_free ptr) m)
    impl_arc4random := fun m => some (word, record .impl_arc4random m)
    impl_arc4random_buf := fun buf count m => some (record (.impl_arc4random_buf buf count) m) }

/-- Between `m` and `m'` no byte outside the `count` bytes starting at `buf`
has changed. -/
def writes_within {H : Type} (buf count : Nat) (m m' : Machine H) : Prop :=
  ∀ a, a < buf ∨ buf + count ≤ a → m'.memory a = m.memory a

/-- A small concrete host over a numeric seed: the allocator stores one byte
derived from the seed in the slot `memptr`, `free` does nothing, and the
random functions draw from the seed. -/
def demo_host : Host Nat :=
  { impl_posix_memalign := fun memptr _alignment size m =>
      some (0, { m with
                 memory := fun a => if a = memptr then m.host % 256 else m.memory a
                 host := m.host + size })
    impl_free := fun _ptr m => some m
    impl_arc4random := fun m =>
      some (m.host % 2 ^ 32, { m with host := m.host * 1103515245 + 12345 })
    impl_arc4random_buf := fun buf count m =>
      some { m with
             memory := fun a => if buf ≤ a ∧ a < buf + count then (m.host + a) % 256
                                else m.memory a
             host := m.host + 1 } }

/-- An engine with a maximum of four pages that serves every request within it. -/
def demo_engine : Engine Nat :=
  { max_pages := 4
    grants := fun _ _ _ => true }

/-- A state with one page of zeroed memory, the linker symbol `heap` at
address 1024 and seed 7. -/
def demo_machine : Machine Nat := initial 1024 (fun _ => 0) 65536 7

/-- The exposed operations, each with the arguments of one call. -/
inductive Op where
  | memory_size
  | memory_grow (page_count : Nat)
  | posix_memalign (memptr alignment size : Nat)
  | free (ptr : Nat)
  | arc4random
  | arc4random_buf (buf count : Nat)
  | __stack_chk_guard_setup
  | __stack_chk_fail
  deriving DecidableEq

/-- What a call hands back to its caller, by C result type. -/
inductive Value where
  | void
  | size_t (n : Nat)
  | int (i : Int)
  | unsigned_int (n : Nat)
  deriving DecidableEq

/-- One call of an exposed operation: the value it returns and the state it
leaves, or `none` when a host function faulted. -/
def call {H : Type} (E : Engine H) (host : Host H) : Op → Machine H → Option (Value × Machine H)
  | .memory_size, m => some (.size_t (memory_size m).1, (memory_size m).2)
  | .memory_grow page_count, m => some (.void, memory_grow E page_count m)
  | .posix_memalign memptr alignment size, m =>
      (posix_memalign host memptr alignment size m).map fun r => (.int r.1, r.2)
  | .free ptr, m => (free host ptr m).map fun m' => (.void, m')
  | .arc4random, m => (arc4random host m).map fun r => (.unsigned_int r.1, r.2)
  | .arc4random_buf buf count, m => (arc4random_buf host buf count m).map fun m' => (.void, m')
  | .__stack_chk_guard_setup, m => some (.void, __stack_chk_guard_setup m)
  | .__stack_chk_fail, m => some (.void, __stack_chk_fail m)

/-- A finite sequence of calls, one after the other; it stops with `none` at
the first fault. -/
def run {H : Type} (E : Engine H) (host : Host H) : List Op → Machine H → Option (Machine H)
  | [], m => some m
  | op :: ops, m =>
      match call E host op m with
      | none => none
      | some r => run E host ops r.2

/-- The two globals of the shim have the same values in `m'` as in `m`. -/
def same_globals {H : Type} (m m' : Machine H) : Prop :=
  m'.__stack_chk_guard = m.__stack_chk_guard ∧ m'.memory_end = m.memory_end

/-- The host functions do not themselves write the globals of the shim. -/
def keeps_globals {H : Type} (host : Host H) : Prop :=
  (∀ memptr alignment size m r,
      host.impl_posix_memalign memptr alignment size m = some r → same_globals m r.2) ∧
  (∀ ptr m m', host.impl_free ptr m = some m' → same_globals m m') ∧
  (∀ m r, host.impl_arc4random m = some r → same_globals m r.2) ∧
  (∀ buf count m m', host.impl_arc4random_buf buf count m = some m' → same_globals m m')

/-- The state `m` with the global `memory_end` replaced by `v`. -/
def set_memory_end {H : Type} (v : Nat) (m : Machine H) : Machine H :=
  { m with memory_end := v }

/-- The host functions neither read nor write `memory_end`: replacing its
value before a host call is the same as replacing it after the call. -/
def ignores_memory_end {H : Type} (host : Host H) : Prop :=
  (∀ v memptr alignment size m,
      host.impl_posix_memalign memptr alignment size (set_memory_end v m) =
        (host.impl_posix_memalign memptr alignment size m).map
          fun r => (r.1, set_memory_end v r.2)) ∧
  (∀ v ptr m,
      host.impl_free ptr (set_memory_end v m) = (host.impl_free ptr m).map (set_memory_end v)) ∧
  (∀ v m,
      host.impl_arc4random (set_memory_end v m) =
        (host.impl_arc4random m).map fun r => (r.1, set_memory_end v r.2)) ∧
  (∀ v buf count m,
      host.impl_arc4random_buf buf count (set_memory_end v m) =
        (host.impl_arc4random_buf buf count m).map (set_memory_end v))

/-- The state the demo host leaves after filling the four bytes at address 16
of `demo_machine`. -/
def demo_filled : Machine Nat :=
  { demo_machine with
    memory := fun a => if 16 ≤ a ∧ a < 16 + 4 then (7 + a) % 256 else 0
    host := 8 }

/-- A sequence that calls every exposed operation, with a refused growth
request at the end. -/
def demo_ops : List Op :=
  [.posix_memalign 2048 16 100, .arc4random_buf 3000 8, .memory_grow 1, .memory_size,
   .arc4random, .free 2048, .__stack_chk_guard_setup, .__stack_chk_fail, .memory_grow 9]

/-- The state after `demo_ops` from `demo_machine`. -/
def demo_final : Machine Nat :=
  (run demo_engine demo_host demo_ops demo_machine).getD demo_machine

/-! ## Helper lemmas -/

theorem grow_result_admitted {H : Type} (E : Engine H) (delta : Nat) (m : Machine H)
    (h : grow_admitted E delta m = true) :
    __builtin_wasm_memory_grow E 0 delta m =
      (m.memory_bytes / WASM_PAGE,
        { m with
          memory := fun a =>
            if m.memory_bytes ≤ a ∧ a < m.memory_bytes + delta * WASM_PAGE then 0
            else m.memory a
          memory_bytes := m.memory_bytes + delta * WASM_PAGE }) := by
  simp [__builtin_wasm_memory_grow, h]

theorem grow_result_refused {H : Type} (E : Engine H) (delta : Nat) (m : Machine H)
    (h : grow_admitted E delta m = false) :
    __builtin_wasm_memory_grow E 0 delta m = (GROW_FAILED, m) := by
  simp [__builtin_wasm_memory_grow, h]

/-- The page count the builtin returns on success is never the failure value. -/
theorem admitted_iff_not_failed {H : Type} (E : Engine H) (delta : Nat) (m : Machine H) :
    grow_admitted E delta m = true ↔ (__builtin_wasm_memory_grow E 0 delta m).1 ≠ GROW_FAILED := by
  constructor
  · intro h
    rw [grow_result_admitted E delta m h]
    have h1 : m.memory_bytes / WASM_PAGE + delta ≤ min E.max_pages PAGE_LIMIT := by
      simp only [grow_admitted, Bool.and_eq_true, decide_eq_true_eq] at h
      exact h.1
    have h2 : min E.max_pages PAGE_LIMIT ≤ 65536 := by
      simp only [PAGE_LIMIT]
      exact Nat.min_le_right _ _
    simp only [GROW_FAILED]
    omega
  · intro h
    by_contra hn
    have hf : grow_admitted E delta m = false := by simpa using hn
    rw [grow_result_refused E delta m hf] at h
    exact h rfl

theorem pages_after_growth (bytes delta : Nat) :
    (bytes + delta * WASM_PAGE) / WASM_PAGE = bytes / WASM_PAGE + delta := by
  have hpos : 0 < WASM_PAGE := by decide
  exact Nat.add_mul_div_right bytes delta hpos

theorem call_same_globals {H : Type} (E : Engine H) (host : Host H) (hk : keeps_globals host)
    (op : Op) (m : Machine H) (r : Value × Machine H) (h : call E host op m = some r) :
    same_globals m r.2 := by
  obtain ⟨hpm, hfr, hrnd, hbuf⟩ := hk
  cases op with
  | memory_size =>
    simp only [call, memory_size, Option.some.injEq] at h
    subst h
    exact ⟨rfl, rfl⟩
  | memory_grow page_count =>
    simp only [call, memory_grow, Option.some.injEq] at h
    subst h
    unfold __builtin_wasm_memory_grow
    split <;> exact ⟨rfl, rfl⟩
  | posix_memalign memptr alignment size =>
    simp only [call, posix_memalign, Option.map_eq_some'] at h
    obtain ⟨x, hx, rfl⟩ := h
    exact hpm memptr alignment size m x hx
  | free ptr =>
    simp only [call, free, Option.map_eq_some'] at h
    obtain ⟨x, hx, rfl⟩ := h
    exact hfr ptr m x hx
  | arc4random =>
    simp only [call, arc4random, Option.map_eq_some'] at h
    obtain ⟨x, hx, rfl⟩ := h
    exact hrnd m x hx
  | arc4random_buf buf count =>
    simp only [call, arc4random_buf, Option.map_eq_some'] at h
    obtain ⟨x, hx, rfl⟩ := h
    exact hbuf buf count m x hx
  | __stack_chk_guard_setup =>
    simp only [call, __stack_chk_guard_setup, Option.some.injEq] at h
    subst h
    exact ⟨rfl, rfl⟩
  | __stack_chk_fail =>
    simp only [call, __stack_chk_fail, Option.some.injEq] at h
    subst h
    exact ⟨rfl, rfl⟩

theorem run_same_globals {H : Type} (E : Engine H) (host : Host H) (hk : keeps_globals host)
    (ops : List Op) (m m' : Machine H) (h : run E host ops m = some m') :
    same_globals m m' := by
  induction ops generalizing m with
  | nil =>
    simp only [run, Option.some.injEq] at h
    subst h
    exact ⟨rfl, rfl⟩
  | cons op ops ih =>
    simp only [run] at h
    cases hc : call E host op m with
    | none => simp [hc] at h
    | some r =>
      rw [hc] at h
      have h1 := call_same_globals E host hk op m r hc
      have h2 := ih r.2 h
      exact ⟨h2.1.trans h1.1, h2.2.trans h1.2⟩

theorem call_set_memory_end {H : Type} (E : Engine H) (host : Host H)
    (hi : ignores_memory_end host) (op : Op) (v : Nat) (m : Machine H) :
    call E host op (set_memory_end v m) =
      (call E host op m).map fun r => (r.1, set_memory_end v r.2) := by
  obtain ⟨hpm, hfr, hrnd, hbuf⟩ := hi
  cases op with
  | memory_size => rfl
  | memory_grow page_count =>
    simp only [call, memory_grow, Option.map_some', Option.some.injEq, Prod.mk.injEq, true_and]
    unfold __builtin_wasm_memory_grow
    have hg : grow_admitted E page_count (set_memory_end v m) = grow_admitted E page_count m := rfl
    rw [hg]
    split <;> rfl
  | posix_memalign memptr alignment size =>
    simp only [call, posix_memalign, hpm, Option.map_map]
    rfl
  | free ptr =>
    simp only [call, free, hfr, Option.map_map]
    rfl
  | arc4random =>
    simp only [call, arc4random, hrnd, Option.map_map]
    rfl
  | arc4random_buf buf count =>
    simp only [call, arc4random_buf, hbuf, Option.map_map]
    rfl
  | __stack_chk_guard_setup => rfl
  | __stack_chk_fail => rfl

theorem demo_host_keeps_globals : keeps_globals demo_host := by
  refine ⟨?_, ?_, ?_, ?_⟩
  · intro memptr alignment size m r h
    simp only [demo_host, Option.some.injEq] at h
    subst h
    exact ⟨rfl, rfl⟩
  · intro ptr m m' h
    simp only [demo_host, Option.some.injEq] at h
    subst h
    exact ⟨rfl, rfl⟩
  · intro m r h
    simp only [demo_host, Option.some.injEq] at h
    subst h
    exact ⟨rfl, rfl⟩
  · intro buf count m m' h
    simp only [demo_host, Option.some.injEq] at h
    subst h
    exact ⟨rfl, rfl⟩

theorem demo_host_ignores_memory_end : ignores_memory_end demo_host :=
  ⟨fun _ _ _ _ _ => rfl, fun _ _ _ => rfl, fun _ _ => rfl, fun _ _ _ _ => rfl⟩

/-! ## The properties -/

/-- C1: for every host, every state and every argument triple,
`posix_memalign(memptr, alignment, size)` returns the code and leaves the
state (linear memory, hence `*memptr`, included) exactly as the single call
`impl_posix_memalign(memptr, alignment, size)` does, and faults exactly when
that call faults.  Nothing is validated: the stub host receives every
alignment and size unchanged, a power of two or not. -/
theorem posix_memalign_delegates {H : Type} (host : Host H) (memptr alignment size : Nat)
    (m : Machine H) :
    posix_memalign host memptr alignment size m
        = host.impl_posix_memalign memptr alignment size m ∧
    ∀ (code : Int) (word : Nat) (s : Machine (List HostCall)),
      posix_memalign (spy code word) memptr alignment size s
        = some (code, record (.impl_posix_memalign memptr alignment size) s) :=
  ⟨rfl, fun _ _ _ => rfl⟩

/-- C2: for every pointer, the null pointer included, `free(ptr)` has exactly
the effect of the single call `impl_free(ptr)`; the shim has no branch of its
own, so `free(null)` faults if and only if `impl_free(null)` faults. -/
theorem free_delegates {H : Type} (host : Host H) (ptr : Nat) (m : Machine H) :
    free host ptr m = host.impl_free ptr m ∧
    (free host 0 m = none ↔ host.impl_free 0 m = none) :=
  ⟨rfl, Iff.rfl⟩

/-- C3: for every buffer, count and state, `arc4random_buf(buf, count)` leaves
the state exactly as the single call `impl_arc4random_buf(buf, count)` does.
In particular, when the host call returns and changes no byte outside the
`count` bytes at `buf`, so does `arc4random_buf`. -/
theorem arc4random_buf_delegates {H : Type} (host : Host H) (buf count : Nat) (m : Machine H) :
    arc4random_buf host buf count m = host.impl_arc4random_buf buf count m ∧
    ∀ m', host.impl_arc4random_buf buf count m = some m' → writes_within buf count m m' →
      arc4random_buf host buf count m = some m' ∧
      ∀ m'', arc4random_buf host buf count m = some m'' → writes_within buf count m m'' := by
  refine ⟨rfl, ?_⟩
  intro m' himpl hw
  refine ⟨himpl, ?_⟩
  intro m'' hshim
  have heq : some m'' = some m' := hshim.symm.trans himpl
  cases heq
  exact hw

/-- Witness for C3: the demo host fills the four bytes at address 16 and
nothing else, and so does `arc4random_buf`. -/
theorem arc4random_buf_delegates_witness :
    demo_host.impl_arc4random_buf 16 4 demo_machine = some demo_filled ∧
    writes_within 16 4 demo_machine demo_filled ∧
    arc4random_buf demo_host 16 4 demo_machine = some demo_filled :=
  have hw : writes_within 16 4 demo_machine demo_filled := by
    intro a ha
    have hout : ¬ (16 ≤ a ∧ a < 16 + 4) := by omega
    simp [demo_filled, demo_machine, initial, hout]
  ⟨rfl, hw, ((arc4random_buf_delegates demo_host 16 4 demo_machine).2 demo_filled rfl hw).1⟩

/-- C4: when the engine honours the request of `memory_grow(n)` (the builtin
does not return its failure value), a following `memory_size()` returns at
least the previous page count plus `n`; for `n = 0` the call is a no-op,
honoured or not: the state is unchanged and a following `memory_size()`
returns the previous page count again. -/
theorem memory_grow_then_size {H : Type} (E : Engine H) (n : Nat) (m : Machine H) :
    ((__builtin_wasm_memory_grow E 0 n m).1 ≠ GROW_FAILED →
      (memory_size m).1 + n ≤ (memory_size (memory_grow E n m)).1) ∧
    memory_grow E 0 m = m ∧
    (memory_size (memory_grow E 0 m)).1 = (memory_size m).1 := by
  have hzero : memory_grow E 0 m = m := by
    cases ha : grow_admitted E 0 m with
    | true =>
      simp only [memory_grow, grow_result_admitted E 0 m ha]
      have hmem : (fun a => if m.memory_bytes ≤ a ∧ a < m.memory_bytes + 0 * WASM_PAGE then 0
          else m.memory a) = m.memory := by
        funext a
        have hempty : ¬ (m.memory_bytes ≤ a ∧ a < m.memory_bytes + 0 * WASM_PAGE) := by omega
        simp only [hempty, if_false]
      rw [hmem]
      simp only [Nat.zero_mul, Nat.add_zero]
    | false =>
      simp only [memory_grow, grow_result_refused E 0 m ha]
  refine ⟨?_, hzero, by rw [hzero]⟩
  intro h
  have ha := (admitted_iff_not_failed E n m).2 h
  simp only [memory_grow, grow_result_admitted E n m ha, memory_size,
    __builtin_wasm_memory_size, pages_after_growth]
  exact le_refl _

/-- Witness for C4: from one page, an honoured request for two pages gives
a size of three pages. -/
theorem memory_grow_then_size_witness :
    (__builtin_wasm_memory_grow demo_engine 0 2 demo_machine).1 ≠ GROW_FAILED ∧
    (memory_size demo_machine).1 + 2 ≤ (memory_size (memory_grow demo_engine 2 demo_machine)).1 ∧
    (memory_size (memory_grow demo_engine 2 demo_machine)).1 = 3 :=
  have h : (__builtin_wasm_memory_grow demo_engine 0 2 demo_machine).1 ≠ GROW_FAILED := by
    decide
  ⟨h, (memory_grow_then_size demo_engine 2 demo_machine).1 h, by decide⟩

/-- C5: `memory_grow` never surfaces a growth failure.  It returns normally
for every `page_count` (it is a total function with no result), and when the
builtin returns its failure value the state is unchanged, so a following
`memory_size()` returns the same page count as before the call. -/
theorem memory_grow_failure_silent {H : Type} (E : Engine H) (page_count : Nat) (m : Machine H)
    (hfail : (__builtin_wasm_memory_grow E 0 page_count m).1 = GROW_FAILED) :
    memory_grow E page_count m = m ∧
    (memory_size (memory_grow E page_count m)).1 = (memory_size m).1 := by
  have hr : grow_admitted E page_count m = false := by
    cases ha : grow_admitted E page_count m with
    | false => rfl
    | true => exact absurd hfail ((admitted_iff_not_failed E page_count m).1 ha)
  have hm : memory_grow E page_count m = m := by
    simp only [memory_grow, grow_result_refused E page_count m hr]
  exact ⟨hm, by rw [hm]⟩

/-- Witness for C5: a request for five pages beyond the maximum of four is
refused, and the size stays at one page. -/
theorem memory_grow_failure_silent_witness :
    (__builtin_wasm_memory_grow demo_engine 0 5 demo_machine).1 = GROW_FAILED ∧
    (memory_size (memory_grow demo_engine 5 demo_machine)).1 = (memory_size demo_machine).1 ∧
    (memory_size demo_machine).1 = 1 :=
  have h : (__builtin_wasm_memory_grow demo_engine 0 5 demo_machine).1 = GROW_FAILED := by
    decide
  ⟨h, (memory_grow_failure_silent demo_engine 5 demo_machine h).2, by decide⟩

/-- C6: `__stack_chk_fail()` and `__stack_chk_guard_setup()` always return
normally (they are total functions) and the state after either call is the
state before it: linear memory and its size, `memory_end`,
`__stack_chk_guard` and the host state.  No host function is invoked: the
state of every host, the stub host's log of invocations included, is left
as it was. -/
theorem stack_chk_no_effect {H : Type} (m : Machine H) (s : Machine (List HostCall)) :
    __stack_chk_fail m = m ∧ __stack_chk_guard_setup m = m ∧
    (__stack_chk_fail s).host = s.host ∧ (__stack_chk_guard_setup s).host = s.host :=
  ⟨rfl, rfl, rfl, rfl⟩

/-- C7: the globals of the shim are invariant.  With host functions that do
not write them, after any finite sequence of calls of the exposed operations
from the initial state `__stack_chk_guard` is still `0x1` and `memory_end` is
still the address of `heap`.  No operation reads `memory_end`: with host
functions that ignore it, every call returns the same value and leaves the
same state whatever `memory_end` holds. -/
theorem globals_invariant {H : Type} (E : Engine H) (host : Host H) (hk : keeps_globals host)
    (heap : Nat) (memory : Nat → Nat) (memory_bytes : Nat) (h0 : H) :
    (∀ ops m', run E host ops (initial heap memory memory_bytes h0) = some m' →
      m'.__stack_chk_guard = 0x1 ∧ m'.memory_end = heap) ∧
    (ignores_memory_end host → ∀ op v m,
      call E host op (set_memory_end v m) =
        (call E host op m).map fun r => (r.1, set_memory_end v r.2)) := by
  constructor
  · intro ops m' h
    exact run_same_globals E host hk ops _ m' h
  · intro hi op v m
    exact call_set_memory_end E host hi op v m

/-- Witness for C7: the demo host keeps and ignores the globals, the demo
sequence runs to its end, and the globals hold their initial values there. -/
theorem globals_invariant_witness :
    keeps_globals demo_host ∧ ignores_memory_end demo_host ∧
    run demo_engine demo_host demo_ops (initial 1024 (fun _ => 0) 65536 7) = some demo_final ∧
    demo_final.__stack_chk_guard = 0x1 ∧ demo_final.memory_end = 1024 ∧
    call demo_engine demo_host .arc4random (set_memory_end 99 demo_machine) =
      (call demo_engine demo_host .arc4random demo_machine).map
        fun r => (r.1, set_memory_end 99 r.2) :=
  have hg := globals_invariant demo_engine demo_host demo_host_keeps_globals
    1024 (fun _ => 0) 65536 7
  have hf := hg.1 demo_ops demo_final rfl
  ⟨demo_host_keeps_globals, demo_host_ignores_memory_end, rfl, hf.1, hf.2,
    hg.2 demo_host_ignores_memory_end .arc4random 99 demo_machine⟩

/-- C8: for every host and every state, `arc4random()` returns the value and
leaves the state exactly as the single call `impl_arc4random()` does, and
faults exactly when it does; the value is not transformed, masked or drawn
again. -/
theorem arc4random_delegates {H : Type} (host : Host H) (m : Machine H) :
    arc4random host m = host.impl_arc4random m ∧
    ∀ (code : Int) (word : Nat) (s : Machine (List HostCall)),
      arc4random (spy code word) s = some (word, record .impl_arc4random s) :=
  ⟨rfl, fun _ _ _ => rfl⟩

/-- C9: every exposed operation, all eight of them, is plain forwarding with
no branch or retry of its own.  For every host each of `posix_memalign`,
`free`, `arc4random` and `arc4random_buf` is its `impl_*` function.  Under
the stub host, whatever values it returns, each of them adds exactly one
entry to the log of host invocations: its own `impl_*` function with the
arguments unmodified and in the same order.  `memory_size` is one query of
the size builtin for memory 0 and `memory_grow` is one request to the grow
builtin for memory 0 with `page_count` unmodified: the memory is longer by
exactly `page_count` pages when the engine serves the request and is
unchanged otherwise.  `memory_size`, `memory_grow`,
`__stack_chk_guard_setup` and `__stack_chk_fail` invoke no host function:
they leave the log as it is. -/
theorem forwarding_exactly_once {H : Type} (host : Host H) (E : Engine H) (m : Machine H)
    (code : Int) (word : Nat) (Es : Engine (List HostCall)) (s : Machine (List HostCall))
    (memptr alignment size ptr buf count page_count : Nat) :
    (posix_memalign host = host.impl_posix_memalign ∧ free host = host.impl_free ∧
      arc4random host = host.impl_arc4random ∧
      arc4random_buf host = host.impl_arc4random_buf) ∧
    (posix_memalign (spy code word) memptr alignment size s).map (fun r => (r.1, r.2.host))
      = some (code, s.host ++ [HostCall.impl_posix_memalign memptr alignment size]) ∧
    (free (spy code word) ptr s).map (fun r => r.host)
      = some (s.host ++ [HostCall.impl_free ptr]) ∧
    (arc4random (spy code word) s).map (fun r => (r.1, r.2.host))
      = some (word, s.host ++ [HostCall.impl_arc4random]) ∧
    (arc4random_buf (spy code word) buf count s).map (fun r => r.host)
      = some (s.host ++ [HostCall.impl_arc4random_buf buf count]) ∧
    (memory_size s).2.host = s.host ∧
    (__stack_chk_guard_setup s).host = s.host ∧
    (__stack_chk_fail s).host = s.host ∧
    memory_size m = (__builtin_wasm_memory_size 0 m, m) ∧
    memory_grow E page_count m = (__builtin_wasm_memory_grow E 0 page_count m).2 ∧
    (memory_grow E page_count m).memory_bytes =
      (if grow_admitted E page_count m then m.memory_bytes + page_count * WASM_PAGE
       else m.memory_bytes) ∧
    (memory_grow Es page_count s).host = s.host ∧
    __stack_chk_guard_setup m = m ∧
    __stack_chk_fail m = m := by
  refine ⟨⟨rfl, rfl, rfl, rfl⟩, rfl, rfl, rfl, rfl, rfl, rfl, rfl, rfl, rfl, ?_, ?_, rfl, rfl⟩
  · cases ha : grow_admitted E page_count m with
    | true => simp only [memory_grow, grow_result_admitted E page_count m ha, if_true]
    | false =>
      simp only [memory_grow, grow_result_refused E page_count m ha, Bool.false_eq_true,
        if_false]
  · cases ha : grow_admitted Es page_count s with
    | true => simp only [memory_grow, grow_result_admitted Es page_count s ha]
    | false => simp only [memory_grow, grow_result_refused Es page_count s ha]

/-- C10: `memory_size()` is a pure query in pages: for every state it returns
the byte length of linear memory divided by the page size of 65536, it leaves
the state unchanged, and a second call right after the first returns the same
value. -/
theorem memory_size_pure_pages {H : Type} (m : Machine H) :
    (memory_size m).1 = m.memory_bytes / 65536 ∧
    (memory_size m).2 = m ∧
    (memory_size (memory_size m).2).1 = (memory_size m).1 :=
  ⟨rfl, rfl, rfl⟩

end Runtime
